import Mathlib

/-!
# Verification of the `pixelated` image-stylization core

Shallow embedding of the pixel transform pipeline of the repository
(`pixelateImage`, `exportImage` and their helper functions from the engine
module, plus the batch-export loop of the export panel component), together
with proofs about the specified properties.

Modelling conventions:
* An `ImageData` buffer is modelled two-dimensionally: `pix x y` is the RGBA
  sample which the source stores at linear index `(y * width + x) * 4`.
  All reads and writes performed by the engine are guarded by
  `dx < blockSize && x + dx < width` (and similarly for `y`), so every access
  stays inside the row and the two views coincide.
* JavaScript numbers are modelled exactly: integer quantities as `Nat`,
  possibly-fractional quantities (the color-effect stage) as `ℚ`, decimal
  literals such as `0.299` as exact rationals.  `Math.round` is
  `fun x => ⌊x + 1/2⌋` (round half toward positive infinity), `Math.floor`
  is `Int.floor`.  For the magnitudes reached by this program the IEEE double
  computations of the source are exact or round identically, except for
  `Math.cbrt`, which is modelled by its exact real value (see `paletteStep`).
* Stores into the `Uint8ClampedArray` buffer clamp to `[0, 255]`, rounding
  non-integral values half to even (`clamp8`), as the web platform specifies
  for `ToUint8Clamp`.
* The grid overlay (`ctx.stroke` calls) and the watermark are *not* modelled:
  their pixel-level effect is produced by the host rasterizer.  Theorems about
  final buffers therefore carry `showGrid = false` hypotheses, and export
  buffers are considered prior to watermarking.
-/

namespace Pixelated

/-- One RGBA sample as stored in the `Uint8ClampedArray` of an `ImageData`:
four integer channels (the engine only ever stores values in `[0, 255]`). -/
structure RGBA where
  r : Nat
  g : Nat
  b : Nat
  a : Nat
deriving DecidableEq

/-- A decoded pixel buffer: dimensions plus the sample grid.  `pix x y` is the
sample at column `x`, row `y` (row-major linear index `(y * width + x) * 4`
in the source). -/
structure ImageBuf where
  width : Nat
  height : Nat
  pix : Nat → Nat → RGBA

/-- `type PixelShape = "square" | "circle" | "hex" | "isometric"` -/
inductive PixelShape where
  | square
  | circle
  | hex
  | isometric
deriving DecidableEq

/-- `type SamplingMode = "averaged" | "nearest"` -/
inductive SamplingMode where
  | averaged
  | nearest
deriving DecidableEq

/-- `type ColorEffect = "normal" | "grayscale" | "duotone" | "posterize"` -/
inductive ColorEffect where
  | normal
  | grayscale
  | duotone
  | posterize
deriving DecidableEq

/-- The `PixelSettings` interface of the engine module.  Optional fields are
`Option`s; JavaScript truthiness of the optional fields is modelled by
`truthyOptStr` / `truthyOptNum` below. -/
structure PixelSettings where
  pixelSize : Nat
  shape : PixelShape
  sampling : SamplingMode
  colorEffect : ColorEffect
  paletteSize : Nat
  showGrid : Bool
  duotoneColor1 : Option String := none
  duotoneColor2 : Option String := none
  posterizeLevels : Option Nat := none
deriving DecidableEq

/-- `Math.round (p / q)` for nonnegative integers `p`, `q > 0`:
`⌊p / q + 1 / 2⌋ = (2 * p + q) / (2 * q)` in integer division. -/
def jsRoundDiv (p q : Nat) : Nat :=
  (2 * p + q) / (2 * q)

/-- `Math.round` on an exact rational: round half toward positive infinity. -/
def jsRoundQ (x : ℚ) : ℤ :=
  ⌊x + 1 / 2⌋

/-- Round to nearest integer, ties to even (the rounding used by
`ToUint8Clamp` when a non-integral number is stored). -/
def roundHalfEven (x : ℚ) : ℤ :=
  if x - ⌊x⌋ < 1 / 2 then ⌊x⌋
  else if 1 / 2 < x - ⌊x⌋ then ⌊x⌋ + 1
  else if 2 ∣ ⌊x⌋ then ⌊x⌋ else ⌊x⌋ + 1

/-- `ToUint8Clamp`: the conversion applied when a number is assigned into a
`Uint8ClampedArray` element (`data[idx] = v`). -/
def clamp8 (x : ℚ) : Nat :=
  if x ≤ 0 then 0
  else if 255 ≤ x then 255
  else (roundHalfEven x).toNat

/-- Value of one hexadecimal digit, `none` for any other character. -/
def hexDigitVal (c : Char) : Option Nat :=
  if '0' ≤ c ∧ c ≤ '9' then some (c.toNat - '0'.toNat)
  else if 'a' ≤ c ∧ c ≤ 'f' then some (c.toNat - 'a'.toNat + 10)
  else if 'A' ≤ c ∧ c ≤ 'F' then some (c.toNat - 'A'.toNat + 10)
  else none

/-- Accumulate the longest leading run of hex digits. -/
def parseHexAux : List Char → Nat → Nat
  | [], acc => acc
  | c :: cs, acc =>
    match hexDigitVal c with
    | some d => parseHexAux cs (acc * 16 + d)
    | none => acc

/-- `Number.parseInt(s, 16)` as used on the `"rrggbb"` part of a hex color
string: parse the longest hex-digit run.  When no digit is present the
source obtains `NaN`, and every later use is through `>> / & 255`, under
which `NaN` behaves as `0`; we return `0` directly in that case. -/
def parseIntHex (s : String) : Nat :=
  parseHexAux s.toList 0

/-- `applyGrayscale` from the engine module. -/
def applyGrayscale (r g b : ℚ) : ℚ × ℚ × ℚ :=
  let gray : ℚ := (jsRoundQ (r * 0.299 + g * 0.587 + b * 0.114) : ℚ)
  (gray, gray, gray)

/-- `applyDuotone` from the engine module.  `c >> 16 & 255` etc. are the
corresponding base-256 digits for the 24-bit color values produced by
`parseIntHex`. -/
def applyDuotone (r g b : ℚ) (color1 color2 : String) : ℚ × ℚ × ℚ :=
  let gray : ℚ := r * 0.299 + g * 0.587 + b * 0.114
  let luminance : ℚ := gray / 255
  let c1 := parseIntHex (color1.drop 1)
  let c1r : ℚ := (c1 / 65536 % 256 : Nat)
  let c1g : ℚ := (c1 / 256 % 256 : Nat)
  let c1b : ℚ := (c1 % 256 : Nat)
  let c2 := parseIntHex (color2.drop 1)
  let c2r : ℚ := (c2 / 65536 % 256 : Nat)
  let c2g : ℚ := (c2 / 256 % 256 : Nat)
  let c2b : ℚ := (c2 % 256 : Nat)
  ((jsRoundQ (c1r + (c2r - c1r) * luminance) : ℚ),
   (jsRoundQ (c1g + (c2g - c1g) * luminance) : ℚ),
   (jsRoundQ (c1b + (c2b - c1b) * luminance) : ℚ))

/-- `applyPosterize` from the engine module.  `step = 256 / levels` can be
non-integral, so the outputs can be non-integral rationals. -/
def applyPosterize (r g b : ℚ) (levels : Nat) : ℚ × ℚ × ℚ :=
  let step : ℚ := 256 / (levels : ℚ)
  let rOut : ℚ := (jsRoundQ (((⌊r / step⌋ : ℚ) * step + step / 2) / step) : ℚ) * step
  let gOut : ℚ := (jsRoundQ (((⌊g / step⌋ : ℚ) * step + step / 2) / step) : ℚ) * step
  let bOut : ℚ := (jsRoundQ (((⌊b / step⌋ : ℚ) * step + step / 2) / step) : ℚ) * step
  (min 255 rOut, min 255 gOut, min 255 bOut)

/-- `Math.ceil(256 / Math.cbrt(paletteSize))`, computed exactly: the least
`k` with `256 / paletteSize ^ (1/3) ≤ k`, i.e. the least `k ≤ 256` with
`256 ^ 3 ≤ k ^ 3 * paletteSize` (for `paletteSize ≥ 1` the bound `k = 256`
always qualifies).  This is the exact real value of the double expression;
for every palette size the UI can produce the two agree. -/
def paletteStep (paletteSize : Nat) : Nat :=
  ((List.range 257).filter fun k => decide (256 ^ 3 ≤ k ^ 3 * paletteSize)).head?.getD 0

/-- `reducePalette` from the engine module. -/
def reducePalette (r g b : ℚ) (paletteSize : Nat) : ℚ × ℚ × ℚ :=
  if 256 ≤ paletteSize then (r, g, b)
  else
    let step : ℚ := (paletteStep paletteSize : ℚ)
    ((jsRoundQ (r / step) : ℚ) * step,
     (jsRoundQ (g / step) : ℚ) * step,
     (jsRoundQ (b / step) : ℚ) * step)

/-- JavaScript truthiness of `string | undefined`: falsy iff absent or `""`. -/
def truthyOptStr : Option String → Bool
  | none => false
  | some s => s ≠ ""

/-- JavaScript truthiness of `number | undefined`: falsy iff absent or `0`. -/
def truthyOptNum : Option Nat → Bool
  | none => false
  | some n => n ≠ 0

/-- The color-effect dispatch of `pixelateImage` / `exportImage`
(the `if/else if` chain on `settings.colorEffect`, including the truthiness
guards on the optional duotone / posterize fields; no branch taken leaves
the sampled color unchanged). -/
def applyEffect (s : PixelSettings) (r g b : ℚ) : ℚ × ℚ × ℚ :=
  if s.colorEffect = ColorEffect.grayscale then
    applyGrayscale r g b
  else if s.colorEffect = ColorEffect.duotone ∧ truthyOptStr s.duotoneColor1 = true
      ∧ truthyOptStr s.duotoneColor2 = true then
    applyDuotone r g b (s.duotoneColor1.getD "") (s.duotoneColor2.getD "")
  else if s.colorEffect = ColorEffect.posterize ∧ truthyOptNum s.posterizeLevels = true then
    applyPosterize r g b (s.posterizeLevels.getD 0)
  else
    (r, g, b)

/-- The set of coordinates visited by the block loops
`for dy while dy < blockSize && y + dy < height` /
`for dx while dx < blockSize && x + dx < width` for the block at `(x, y)`. -/
def inRect (w h bs x y px py : Nat) : Prop :=
  x ≤ px ∧ px < x + min bs (w - x) ∧ y ≤ py ∧ py < y + min bs (h - y)

instance instDecidableInRect (w h bs x y px py : Nat) : Decidable (inRect w h bs x y px py) :=
  inferInstanceAs (Decidable (x ≤ px ∧ px < x + min bs (w - x) ∧ y ≤ py ∧ py < y + min bs (h - y)))

/-- The coordinates read by the averaging loops of the block at `(x, y)`,
in loop order (outer `dy`, inner `dx`). -/
def blockCoords (w h bs x y : Nat) : List (Nat × Nat) :=
  (List.range (min bs (h - y))).flatMap fun dy =>
    (List.range (min bs (w - x))).map fun dx => (x + dx, y + dy)

/-- The sample step of a block: `nearest` reads the top-left pixel of the
block, `averaged` sums every in-bounds channel and rounds the means. -/
def sampleBlock (pix : Nat → Nat → RGBA) (w h bs x y : Nat) : SamplingMode → RGBA
  | SamplingMode.nearest => pix x y
  | SamplingMode.averaged =>
    let pts := blockCoords w h bs x y
    let count := pts.length
    { r := jsRoundDiv (pts.map fun p => (pix p.1 p.2).r).sum count
      g := jsRoundDiv (pts.map fun p => (pix p.1 p.2).g).sum count
      b := jsRoundDiv (pts.map fun p => (pix p.1 p.2).b).sum count
      a := jsRoundDiv (pts.map fun p => (pix p.1 p.2).a).sum count }

/-- The full per-block color computation of the engine: sample, color effect,
unconditional palette reduction, then the clamping store into the
`Uint8ClampedArray` (alpha is stored as sampled). -/
def blockColor (pix : Nat → Nat → RGBA) (s : PixelSettings) (w h x y : Nat) : RGBA :=
  let c := sampleBlock pix w h s.pixelSize x y s.sampling
  let e := applyEffect s (c.r : ℚ) (c.g : ℚ) (c.b : ℚ)
  let q := reducePalette e.1 e.2.1 e.2.2 s.paletteSize
  { r := clamp8 q.1, g := clamp8 q.2.1, b := clamp8 q.2.2, a := clamp8 (c.a : ℚ) }

/-- The write-back loops of one block: every in-bounds coordinate of the block
receives the block color. -/
def writeBlock (pix : Nat → Nat → RGBA) (w h bs x y : Nat) (c : RGBA) : Nat → Nat → RGBA :=
  fun px py => if inRect w h bs x y px py then c else pix px py

/-- One iteration of the block loop body on the mutable buffer. -/
def stepBlock (s : PixelSettings) (w h : Nat) (pix : Nat → Nat → RGBA) (o : Nat × Nat) :
    Nat → Nat → RGBA :=
  writeBlock pix w h s.pixelSize o.1 o.2 (blockColor pix s w h o.1 o.2)

/-- The origins visited by `for (v = 0; v < len; v += blockSize)`:
`0, bs, 2·bs, …` below `len`. -/
def blockOrigins (len bs : Nat) : List Nat :=
  (List.range ((len + bs - 1) / bs)).map fun k => k * bs

/-- Block origins of the whole image in loop order (outer `y`, inner `x`). -/
def blockOriginPairs (w h bs : Nat) : List (Nat × Nat) :=
  (blockOrigins h bs).flatMap fun y => (blockOrigins w bs).map fun x => (x, y)

/-- Characterization of the origins produced by the block loops: multiples of
the block size lying strictly inside the image. -/
def validOrigin (w h bs : Nat) (o : Nat × Nat) : Prop :=
  (∃ k, o.1 = k * bs) ∧ o.1 < w ∧ (∃ k, o.2 = k * bs) ∧ o.2 < h

/-- The block-processing stage of `pixelateImage` (and of the identical loop
in `exportImage`): fold the per-block mutation over all block origins.  This
is the buffer committed by `ctx.putImageData`; the optional grid strokes
drawn afterwards are host-rasterized and not modelled. -/
def pixelateBuffer (s : PixelSettings) (img : ImageBuf) : ImageBuf :=
  { width := img.width
    height := img.height
    pix := (blockOriginPairs img.width img.height s.pixelSize).foldl
      (stepBlock s img.width img.height) img.pix }

/-- Modelled from the spec: the scaling step of `exportImage` is performed by
the host primitive `ctx.drawImage` with `imageSmoothingEnabled = false`
(§4.4 step 3 of the spec: allocate `width·scale × height·scale` and fill by
nearest-neighbor replication, output pixel `(x, y)` = native pixel
`(⌊x / scale⌋, ⌊y / scale⌋)`; the `scale = 1` branch is a direct copy, which
is the same formula). -/
def exportScaled (native : ImageBuf) (scale : Nat) : ImageBuf :=
  { width := native.width * scale
    height := native.height * scale
    pix := fun x y => native.pix (x / scale) (y / scale) }

/-- `exportImage` up to (and excluding) the watermark stamp: run the engine's
block loop at native resolution, then scale. -/
def exportImageBuf (s : PixelSettings) (img : ImageBuf) (scale : Nat) : ImageBuf :=
  exportScaled (pixelateBuffer s img) scale

/-- The toast message emitted by the batch loop for a failed scale. -/
def batchToast (scale : Nat) : String :=
  "Failed to export " ++ toString scale ++ "x version"

/-- State threaded through the batch-export loop: the `exportedFiles` list and
the emitted failure toasts. -/
structure BatchState where
  exportedFiles : List (Nat × String)
  toasts : List String
deriving DecidableEq

/-- One iteration of `handleBatchExport`'s `for (const scale of scales)` body:
`await exportImage(...)` either fulfills with a data URL (appended to
`exportedFiles`) or rejects (caught; a failure toast for that scale is
emitted); either way the loop continues with the next scale. -/
def batchStep (outcome : Nat → Except String String) (st : BatchState) (scale : Nat) :
    BatchState :=
  match outcome scale with
  | Except.ok dataUrl => { st with exportedFiles := st.exportedFiles ++ [(scale, dataUrl)] }
  | Except.error _ => { st with toasts := st.toasts ++ [batchToast scale] }

/-- `handleBatchExport` from the export panel component, abstracted over the
per-scale outcome of `exportImage`. -/
def handleBatchExport (outcome : Nat → Except String String) (scales : List Nat) : BatchState :=
  scales.foldl (batchStep outcome) ⟨[], []⟩

/-- `const scales = [1, 2, 4]` in `handleBatchExport`. -/
def batchScales : List Nat := [1, 2, 4]

/-! ## Concrete inputs used by witnesses and counterexamples -/

/-- A 1×1 all-white opaque image. -/
def whiteImg : ImageBuf :=
  { width := 1, height := 1, pix := fun _ _ => ⟨255, 255, 255, 255⟩ }

/-- Settings with `paletteSize = 125` (palette step 52) and no color effect. -/
def palette125Settings : PixelSettings :=
  { pixelSize := 1, shape := PixelShape.square, sampling := SamplingMode.nearest
    colorEffect := ColorEffect.normal, paletteSize := 125, showGrid := false }

/-- Plain settings: 2×2 blocks, averaged sampling, no effect, no quantization. -/
def plainSettings : PixelSettings :=
  { pixelSize := 2, shape := PixelShape.square, sampling := SamplingMode.averaged
    colorEffect := ColorEffect.normal, paletteSize := 256, showGrid := false }

/-- A 3×3 image: white where `x = y`, black elsewhere. -/
def diagImg : ImageBuf :=
  { width := 3, height := 3
    pix := fun x y => if x = y then ⟨255, 255, 255, 255⟩ else ⟨0, 0, 0, 255⟩ }

/-- The 2×2 grid `[(0,0,0), (255,255,255), (0,0,0), (255,255,255)]` (row-major,
fully opaque) from the spec's averaged-sampling test vector. -/
def checker2x2 : Nat → Nat → RGBA :=
  fun x _ => if x = 1 then ⟨255, 255, 255, 255⟩ else ⟨0, 0, 0, 255⟩

/-- Duotone settings with both duotone colors absent. -/
def duotoneMissing : PixelSettings :=
  { pixelSize := 2, shape := PixelShape.square, sampling := SamplingMode.averaged
    colorEffect := ColorEffect.duotone, paletteSize := 256, showGrid := false }

/-- A per-scale outcome where only scale 2 fails. -/
def failAt2 : Nat → Except String String :=
  fun scale => if scale = 2 then Except.error "canvas error" else Except.ok "data"

/-! ## Rounding and quantization lemmas -/

theorem jsRoundDiv_uniform (v n : Nat) (hn : 1 ≤ n) : jsRoundDiv (n * v) n = v := by
  unfold jsRoundDiv
  have h1 : 2 * (n * v) + n = n * (2 * v + 1) := by ring
  have h2 : 2 * n = n * 2 := by ring
  rw [h1, h2, Nat.mul_div_mul_left _ _ hn]
  omega

theorem jsRoundDiv_le (p n c : Nat) (hn : 1 ≤ n) (hp : p ≤ n * c) : jsRoundDiv p n ≤ c := by
  unfold jsRoundDiv
  have h1 : 2 * p + n ≤ n * (2 * c + 1) := by nlinarith
  have h2 : (2 * p + n) / (2 * n) ≤ n * (2 * c + 1) / (2 * n) := Nat.div_le_div_right h1
  have h3 : n * (2 * c + 1) / (2 * n) = c := by
    have h4 : 2 * n = n * 2 := by ring
    rw [h4, Nat.mul_div_mul_left _ _ hn]
    omega
  omega

theorem jsRoundQ_intCast (m : ℤ) : jsRoundQ (m : ℚ) = m := by
  unfold jsRoundQ
  rw [add_comm, Int.floor_add_int]
  norm_num

theorem paletteStep_pos (ps : Nat) (hps : 1 ≤ ps) : 1 ≤ paletteStep ps := by
  unfold paletteStep
  have hmem : 256 ∈ (List.range 257).filter fun k => decide (256 ^ 3 ≤ k ^ 3 * ps) := by
    rw [List.mem_filter]
    refine ⟨by simp, ?_⟩
    simp only [decide_eq_true_eq]
    calc 256 ^ 3 = 256 ^ 3 * 1 := by ring
      _ ≤ 256 ^ 3 * ps := Nat.mul_le_mul_left _ hps
  cases hhead : ((List.range 257).filter fun k => decide (256 ^ 3 ≤ k ^ 3 * ps)).head? with
  | none =>
    rw [List.head?_eq_none_iff] at hhead
    rw [hhead] at hmem
    exact absurd hmem (List.not_mem_nil _)
  | some k =>
    simp only [Option.getD_some]
    have hk := List.mem_of_mem_head? (by rw [hhead]; exact rfl : k ∈ ((List.range 257).filter
      fun k => decide (256 ^ 3 ≤ k ^ 3 * ps)).head?)
    rw [List.mem_filter] at hk
    have hk2 := of_decide_eq_true hk.2
    rcases Nat.eq_zero_or_pos k with hk0 | hk1
    · subst hk0
      norm_num at hk2
    · exact hk1

theorem roundQuant_idem (c : ℚ) (st : Nat) (hst : 1 ≤ st) :
    (jsRoundQ (((jsRoundQ (c / (st : ℚ)) : ℚ) * st) / st) : ℚ) * st
      = (jsRoundQ (c / (st : ℚ)) : ℚ) * st := by
  have hne : (st : ℚ) ≠ 0 := by
    exact_mod_cast Nat.one_le_iff_ne_zero.mp hst
  rw [mul_div_cancel_right₀ _ hne, jsRoundQ_intCast]

/-! ## Block coordinate lemmas -/

theorem mem_blockCoords {w h bs x y : Nat} {p : Nat × Nat} :
    p ∈ blockCoords w h bs x y ↔ inRect w h bs x y p.1 p.2 := by
  obtain ⟨px, py⟩ := p
  simp only [blockCoords, inRect, List.mem_flatMap, List.mem_map, List.mem_range, Prod.mk.injEq]
  constructor
  · rintro ⟨dy, hdy, dx, hdx, hx, hy⟩
    have h1 := Nat.min_le_left bs (h - y)
    have h2 := Nat.min_le_left bs (w - x)
    omega
  · rintro ⟨h1, h2, h3, h4⟩
    exact ⟨py - y, by omega, px - x, by omega, by omega, by omega⟩

theorem blockCoords_length (w h bs x y : Nat) :
    (blockCoords w h bs x y).length = min bs (h - y) * min bs (w - x) := by
  simp [blockCoords, Function.comp_def, List.map_const', List.sum_replicate, smul_eq_mul,
    Nat.mul_comm]

theorem sum_map_eq_of_const {α : Type} (l : List α) (f : α → Nat) (v : Nat)
    (h : ∀ p ∈ l, f p = v) : (l.map f).sum = l.length * v := by
  rw [List.map_congr_left h, List.map_const', List.sum_replicate, smul_eq_mul]

theorem sampleBlock_uniform (pix : Nat → Nat → RGBA) (w h bs x y : Nat) (c : RGBA)
    (hbs : 1 ≤ bs) (hx : x < w) (hy : y < h)
    (hconst : ∀ px py, inRect w h bs x y px py → pix px py = c) :
    sampleBlock pix w h bs x y SamplingMode.averaged = c := by
  obtain ⟨cr, cg, cb, ca⟩ := c
  have hpos : 1 ≤ (blockCoords w h bs x y).length := by
    rw [blockCoords_length]
    have h1 : 1 ≤ min bs (h - y) := Nat.le_min.mpr ⟨hbs, by omega⟩
    have h2 : 1 ≤ min bs (w - x) := Nat.le_min.mpr ⟨hbs, by omega⟩
    exact Nat.mul_pos h1 h2
  have hcomp : ∀ (f : RGBA → Nat) (v : Nat), (∀ q : RGBA, q = ⟨cr, cg, cb, ca⟩ → f q = v) →
      jsRoundDiv ((blockCoords w h bs x y).map fun p => f (pix p.1 p.2)).sum
        (blockCoords w h bs x y).length = v := by
    intro f v hf
    rw [sum_map_eq_of_const _ _ v fun p hp =>
      hf _ (hconst p.1 p.2 (mem_blockCoords.mp hp))]
    exact jsRoundDiv_uniform v _ hpos
  simp only [sampleBlock]
  rw [RGBA.mk.injEq]
  exact ⟨hcomp (fun q => q.r) cr fun q hq => by rw [hq],
    hcomp (fun q => q.g) cg fun q hq => by rw [hq],
    hcomp (fun q => q.b) cb fun q hq => by rw [hq],
    hcomp (fun q => q.a) ca fun q hq => by rw [hq]⟩

/-! ## Claim theorems: palette reduction and sampling -/

/-- C2: `reducePalette` is idempotent: for every channel triple and every
`paletteSize ≥ 1` (the settings contract restricts it to `[2, 256]`),
applying `reducePalette` twice with the same `paletteSize` yields the same
result as applying it once. -/
theorem c2_reducePalette_idempotent (r g b : ℚ) (ps : Nat) (hps : 1 ≤ ps) :
    reducePalette (reducePalette r g b ps).1 (reducePalette r g b ps).2.1
      (reducePalette r g b ps).2.2 ps = reducePalette r g b ps := by
  by_cases h : 256 ≤ ps
  · simp [reducePalette, h]
  · have hst := paletteStep_pos ps hps
    simp only [reducePalette, if_neg h]
    exact Prod.ext (roundQuant_idem r _ hst)
      (Prod.ext (roundQuant_idem g _ hst) (roundQuant_idem b _ hst))

theorem c2_witness :
    1 ≤ 27 ∧
      reducePalette (reducePalette 10 20 30 27).1 (reducePalette 10 20 30 27).2.1
        (reducePalette 10 20 30 27).2.2 27 = reducePalette 10 20 30 27 :=
  ⟨by norm_num, c2_reducePalette_idempotent 10 20 30 27 (by norm_num)⟩

/-- C9: `reducePalette` does not clamp: channel value 255 with
`paletteSize = 125` (step `⌈256 / 5⌉ = 52`) is mapped to `260 > 255`. -/
theorem c9_reducePalette_exceeds_255 :
    (reducePalette 255 255 255 125).1 = 260 ∧ (255 : ℚ) < (reducePalette 255 255 255 125).1 := by
  have hstep : paletteStep 125 = 52 := by decide
  have h125 : ¬(256 ≤ 125) := by norm_num
  have h1 : (reducePalette 255 255 255 125).1 = 260 := by
    simp only [reducePalette, if_neg h125, hstep]
    norm_num [jsRoundQ]
  exact ⟨h1, by rw [h1]; norm_num⟩

/-- C4: `averaged` sampling sums each channel over the in-bounds pixels of the
(possibly edge-clipped) block and rounds the mean: a uniform block yields
exactly its color, and the 2×2 test block
`[(0,0,0), (255,255,255), (0,0,0), (255,255,255)]` yields `(128,128,128)`. -/
theorem c4_averaged_sampling :
    (∀ (pix : Nat → Nat → RGBA) (w h bs x y : Nat) (c : RGBA), 1 ≤ bs → x < w → y < h →
        (∀ px py, inRect w h bs x y px py → pix px py = c) →
        sampleBlock pix w h bs x y SamplingMode.averaged = c) ∧
      sampleBlock checker2x2 2 2 2 0 0 SamplingMode.averaged = ⟨128, 128, 128, 255⟩ :=
  ⟨fun pix w h bs x y c hbs hx hy hconst =>
    sampleBlock_uniform pix w h bs x y c hbs hx hy hconst, by decide⟩

theorem c4_witness :
    1 ≤ 2 ∧
      sampleBlock (fun _ _ => RGBA.mk 7 8 9 10) 3 3 2 2 2 SamplingMode.averaged = RGBA.mk 7 8 9 10 :=
  ⟨by norm_num, c4_averaged_sampling.1 _ 3 3 2 2 2 _ (by norm_num) (by norm_num) (by norm_num)
    fun _ _ _ => rfl⟩

/-! ## Engine block-loop machinery -/

theorem writeBlock_in {pix : Nat → Nat → RGBA} {w h bs x y : Nat} {c : RGBA} {px py : Nat}
    (hin : inRect w h bs x y px py) : writeBlock pix w h bs x y c px py = c := by
  simp [writeBlock, hin]

theorem writeBlock_out {pix : Nat → Nat → RGBA} {w h bs x y : Nat} {c : RGBA} {px py : Nat}
    (hout : ¬ inRect w h bs x y px py) : writeBlock pix w h bs x y c px py = pix px py := by
  simp [writeBlock, hout]

theorem sampleBlock_congr (pix pix0 : Nat → Nat → RGBA) (w h bs x y : Nat) (m : SamplingMode)
    (hbs : 1 ≤ bs) (hx : x < w) (hy : y < h)
    (hagree : ∀ px py, inRect w h bs x y px py → pix px py = pix0 px py) :
    sampleBlock pix w h bs x y m = sampleBlock pix0 w h bs x y m := by
  cases m with
  | nearest =>
    have h1 : 1 ≤ min bs (w - x) := Nat.le_min.mpr ⟨hbs, by omega⟩
    have h2 : 1 ≤ min bs (h - y) := Nat.le_min.mpr ⟨hbs, by omega⟩
    exact hagree x y ⟨Nat.le_refl x, by omega, Nat.le_refl y, by omega⟩
  | averaged =>
    simp only [sampleBlock]
    have hmap : ∀ f : RGBA → Nat,
        ((blockCoords w h bs x y).map fun p => f (pix p.1 p.2))
          = (blockCoords w h bs x y).map fun p => f (pix0 p.1 p.2) := fun f =>
      List.map_congr_left fun p hp => by rw [hagree p.1 p.2 (mem_blockCoords.mp hp)]
    rw [hmap fun q => q.r, hmap fun q => q.g, hmap fun q => q.b, hmap fun q => q.a]

theorem blockColor_congr (pix pix0 : Nat → Nat → RGBA) (s : PixelSettings) (w h x y : Nat)
    (hbs : 1 ≤ s.pixelSize) (hx : x < w) (hy : y < h)
    (hagree : ∀ px py, inRect w h s.pixelSize x y px py → pix px py = pix0 px py) :
    blockColor pix s w h x y = blockColor pix0 s w h x y := by
  unfold blockColor
  rw [sampleBlock_congr pix pix0 w h s.pixelSize x y s.sampling hbs hx hy hagree]

theorem eq_block_index {bs k v : Nat} (h1 : k * bs ≤ v) (h2 : v < k * bs + bs) :
    v / bs = k :=
  Nat.div_eq_of_lt_le h1 (by rw [Nat.succ_mul]; omega)

theorem mem_blockOrigins {len bs v : Nat} (hbs : 1 ≤ bs) :
    v ∈ blockOrigins len bs ↔ (∃ k, v = k * bs) ∧ v < len := by
  simp only [blockOrigins, List.mem_map, List.mem_range]
  constructor
  · rintro ⟨k, hk, rfl⟩
    refine ⟨⟨k, rfl⟩, ?_⟩
    have h1 : (k + 1) * bs ≤ (len + bs - 1) / bs * bs :=
      Nat.mul_le_mul_right bs hk
    have h2 : (len + bs - 1) / bs * bs ≤ len + bs - 1 := Nat.div_mul_le_self _ _
    have h3 : (k + 1) * bs = k * bs + bs := by ring
    omega
  · rintro ⟨⟨k, rfl⟩, hlen⟩
    refine ⟨k, ?_, rfl⟩
    rw [Nat.lt_iff_add_one_le, Nat.le_div_iff_mul_le (by omega : 0 < bs)]
    have h3 : (k + 1) * bs = k * bs + bs := by ring
    omega

theorem mem_blockOriginPairs {w h bs : Nat} {o : Nat × Nat} (hbs : 1 ≤ bs) :
    o ∈ blockOriginPairs w h bs ↔ validOrigin w h bs o := by
  obtain ⟨ox, oy⟩ := o
  simp only [blockOriginPairs, List.mem_flatMap, List.mem_map, validOrigin]
  constructor
  · rintro ⟨y, hy, x, hx, heq⟩
    obtain ⟨rfl, rfl⟩ := Prod.mk.injEq .. ▸ heq
    rw [mem_blockOrigins hbs] at hy hx
    exact ⟨hx.1, hx.2, hy.1, hy.2⟩
  · rintro ⟨⟨kx, hkx⟩, hxw, ⟨ky, hky⟩, hyh⟩
    exact ⟨oy, (mem_blockOrigins hbs).mpr ⟨⟨ky, hky⟩, hyh⟩, ox,
      (mem_blockOrigins hbs).mpr ⟨⟨kx, hkx⟩, hxw⟩, rfl⟩

theorem origin_mem_blockOriginPairs {w h bs px py : Nat} (hbs : 1 ≤ bs)
    (hx : px < w) (hy : py < h) :
    (px / bs * bs, py / bs * bs) ∈ blockOriginPairs w h bs := by
  rw [mem_blockOriginPairs hbs]
  exact ⟨⟨px / bs, rfl⟩, lt_of_le_of_lt (Nat.div_mul_le_self px bs) hx,
    ⟨py / bs, rfl⟩, lt_of_le_of_lt (Nat.div_mul_le_self py bs) hy⟩

theorem inRect_canonical {w h bs px py : Nat} (hbs : 1 ≤ bs) (hx : px < w) (hy : py < h) :
    inRect w h bs (px / bs * bs) (py / bs * bs) px py := by
  have hx1 : px / bs * bs ≤ px := Nat.div_mul_le_self px bs
  have hy1 : py / bs * bs ≤ py := Nat.div_mul_le_self py bs
  have hx2 : px < px / bs * bs + bs := by
    have hd := Nat.div_add_mod px bs
    have hm : px % bs < bs := Nat.mod_lt px (by omega)
    have he : bs * (px / bs) = px / bs * bs := Nat.mul_comm bs (px / bs)
    omega
  have hy2 : py < py / bs * bs + bs := by
    have hd := Nat.div_add_mod py bs
    have hm : py % bs < bs := Nat.mod_lt py (by omega)
    have he : bs * (py / bs) = py / bs * bs := Nat.mul_comm bs (py / bs)
    omega
  refine ⟨hx1, ?_, hy1, ?_⟩
  · rcases le_total bs (w - px / bs * bs) with hmin | hmin
    · rw [min_eq_left hmin]; omega
    · rw [min_eq_right hmin]; omega
  · rcases le_total bs (h - py / bs * bs) with hmin | hmin
    · rw [min_eq_left hmin]; omega
    · rw [min_eq_right hmin]; omega

theorem inRect_origin_unique {w h bs : Nat} {o : Nat × Nat} {px py : Nat}
    (ho : validOrigin w h bs o) (hin : inRect w h bs o.1 o.2 px py) :
    o = (px / bs * bs, py / bs * bs) := by
  obtain ⟨⟨kx, hkx⟩, hxw, ⟨ky, hky⟩, hyh⟩ := ho
  obtain ⟨h1, h2, h3, h4⟩ := hin
  have hminx := Nat.min_le_left bs (w - o.1)
  have hminy := Nat.min_le_left bs (h - o.2)
  have hdx : px / bs = kx := eq_block_index (hkx ▸ h1) (by omega)
  have hdy : py / bs = ky := eq_block_index (hky ▸ h3) (by omega)
  obtain ⟨ox, oy⟩ := o
  simp only at hkx hky
  rw [Prod.mk.injEq, hdx, hdy]
  exact ⟨hkx, hky⟩

theorem nodup_pairs_flatMap (ys xs : List Nat) (hy : ys.Nodup) (hx : xs.Nodup) :
    (ys.flatMap fun y => xs.map fun x => (x, y)).Nodup := by
  induction ys with
  | nil => simp
  | cons y ys ih =>
    rw [List.flatMap_cons]
    refine List.Nodup.append ?_ (ih (List.nodup_cons.mp hy).2) ?_
    · exact List.Nodup.map (fun a b hab => congrArg Prod.fst hab) hx
    · intro p hp1 hp2
      simp only [List.mem_map] at hp1
      obtain ⟨x, hx1, rfl⟩ := hp1
      simp only [List.mem_flatMap, List.mem_map] at hp2
      obtain ⟨y', hy', x', hx', heq⟩ := hp2
      have hyy : y' = y := congrArg Prod.snd heq
      exact (List.nodup_cons.mp hy).1 (hyy ▸ hy')

theorem nodup_blockOriginPairs (w h bs : Nat) (hbs : 1 ≤ bs) :
    (blockOriginPairs w h bs).Nodup := by
  have hinj : Function.Injective fun k => k * bs := fun a b hab =>
    Nat.eq_of_mul_eq_mul_right (by omega) hab
  exact nodup_pairs_flatMap _ _ (List.Nodup.map hinj (List.nodup_range _))
    (List.Nodup.map hinj (List.nodup_range _))

theorem foldl_stepBlock_untouched (s : PixelSettings) (w h : Nat) :
    ∀ (L : List (Nat × Nat)) (pix : Nat → Nat → RGBA) (px py : Nat),
      (∀ o ∈ L, ¬ inRect w h s.pixelSize o.1 o.2 px py) →
      L.foldl (stepBlock s w h) pix px py = pix px py := by
  intro L
  induction L with
  | nil => intro pix px py _; rfl
  | cons o' L ih =>
    intro pix px py hout
    rw [List.foldl_cons]
    rw [ih _ px py fun o ho => hout o (List.mem_cons_of_mem o' ho)]
    exact writeBlock_out (hout o' (List.mem_cons_self o' L))

theorem foldl_stepBlock_mem (s : PixelSettings) (w h : Nat) (pix0 : Nat → Nat → RGBA) :
    ∀ (L : List (Nat × Nat)) (pix : Nat → Nat → RGBA) (o : Nat × Nat) (px py : Nat),
      o ∈ L → L.Nodup →
      (∀ o' ∈ L, validOrigin w h s.pixelSize o') →
      (∀ o' ∈ L, ∀ qx qy, inRect w h s.pixelSize o'.1 o'.2 qx qy → pix qx qy = pix0 qx qy) →
      inRect w h s.pixelSize o.1 o.2 px py →
      L.foldl (stepBlock s w h) pix px py = blockColor pix0 s w h o.1 o.2 := by
  intro L
  induction L with
  | nil => intro pix o px py hmem; exact absurd hmem (List.not_mem_nil o)
  | cons o' L ih =>
    intro pix o px py hmem hnodup hvalid hagree hin
    have hbs : 1 ≤ s.pixelSize := by
      obtain ⟨h1, h2, h3, h4⟩ := hin
      have hmin : 1 ≤ min s.pixelSize (w - o.1) := by omega
      exact le_trans hmin (Nat.min_le_left _ _)
    rw [List.foldl_cons]
    rcases List.mem_cons.mp hmem with heq | hmemtail
    · subst heq
      have hnotail : ∀ o'' ∈ L, ¬ inRect w h s.pixelSize o''.1 o''.2 px py := by
        intro o'' ho'' hin''
        have h1 := inRect_origin_unique (hvalid o'' (List.mem_cons_of_mem o ho'')) hin''
        have h2 := inRect_origin_unique (hvalid o (List.mem_cons_self o L)) hin
        have heq' : o'' = o := by rw [h1, h2]
        exact (List.nodup_cons.mp hnodup).1 (heq' ▸ ho'')
      rw [foldl_stepBlock_untouched s w h L _ px py hnotail]
      have hv := hvalid o (List.mem_cons_self o L)
      calc stepBlock s w h pix o px py
          = blockColor pix s w h o.1 o.2 := writeBlock_in hin
        _ = blockColor pix0 s w h o.1 o.2 :=
            blockColor_congr pix pix0 s w h o.1 o.2 hbs hv.2.1 hv.2.2.2
              (hagree o (List.mem_cons_self o L))
    · refine ih (stepBlock s w h pix o') o px py hmemtail (List.nodup_cons.mp hnodup).2
        (fun o'' ho'' => hvalid o'' (List.mem_cons_of_mem o' ho'')) ?_ hin
      intro o'' ho'' qx qy hin''
      have hne : ¬ inRect w h s.pixelSize o'.1 o'.2 qx qy := by
        intro hin'
        have h1 := inRect_origin_unique (hvalid o' (List.mem_cons_self o' L)) hin'
        have h2 := inRect_origin_unique (hvalid o'' (List.mem_cons_of_mem o' ho'')) hin''
        have heq' : o' = o'' := by rw [h1, h2]
        exact (List.nodup_cons.mp hnodup).1 (heq' ▸ ho'')
      calc stepBlock s w h pix o' qx qy
          = pix qx qy := writeBlock_out hne
        _ = pix0 qx qy := hagree o'' (List.mem_cons_of_mem o' ho'') qx qy hin''

/-- The central characterization of the block loop: despite the in-place
mutation, each output pixel holds the color computed (from the original
buffer) for the block whose origin is `(⌊x/bs⌋·bs, ⌊y/bs⌋·bs)`. -/
theorem pixelate_pix_eq (s : PixelSettings) (img : ImageBuf) (x y : Nat)
    (hbs : 1 ≤ s.pixelSize) (hx : x < img.width) (hy : y < img.height) :
    (pixelateBuffer s img).pix x y
      = blockColor img.pix s img.width img.height
          (x / s.pixelSize * s.pixelSize) (y / s.pixelSize * s.pixelSize) :=
  foldl_stepBlock_mem s img.width img.height img.pix
    (blockOriginPairs img.width img.height s.pixelSize) img.pix
    (x / s.pixelSize * s.pixelSize, y / s.pixelSize * s.pixelSize) x y
    (origin_mem_blockOriginPairs hbs hx hy)
    (nodup_blockOriginPairs _ _ _ hbs)
    (fun _ ho' => (mem_blockOriginPairs hbs).mp ho')
    (fun _ _ _ _ _ => rfl)
    (inRect_canonical hbs hx hy)

/-! ## Alpha and clamping lemmas -/

theorem blockCoords_length_pos {w h bs x y : Nat} (hbs : 1 ≤ bs) (hx : x < w) (hy : y < h) :
    1 ≤ (blockCoords w h bs x y).length := by
  rw [blockCoords_length]
  exact Nat.mul_pos (Nat.le_min.mpr ⟨hbs, by omega⟩) (Nat.le_min.mpr ⟨hbs, by omega⟩)

theorem sampleBlock_alpha_le (pix : Nat → Nat → RGBA) (w h bs x y : Nat) (m : SamplingMode)
    (hbs : 1 ≤ bs) (hx : x < w) (hy : y < h)
    (hbound : ∀ px py, px < w → py < h → (pix px py).a ≤ 255) :
    (sampleBlock pix w h bs x y m).a ≤ 255 := by
  cases m with
  | nearest => exact hbound x y hx hy
  | averaged =>
    simp only [sampleBlock]
    have hbnd : ∀ v ∈ (blockCoords w h bs x y).map fun p => (pix p.1 p.2).a, v ≤ 255 := by
      intro v hv
      obtain ⟨p, hp, rfl⟩ := List.mem_map.mp hv
      obtain ⟨h1, h2, h3, h4⟩ := mem_blockCoords.mp hp
      have hminx := Nat.min_le_right bs (w - x)
      have hminy := Nat.min_le_right bs (h - y)
      exact hbound p.1 p.2 (by omega) (by omega)
    have hsum := List.sum_le_card_nsmul _ 255 hbnd
    rw [List.length_map, smul_eq_mul] at hsum
    exact jsRoundDiv_le _ _ _ (blockCoords_length_pos hbs hx hy) hsum

theorem clamp8_natCast_of_le (n : Nat) (h : n ≤ 255) : clamp8 (n : ℚ) = n := by
  unfold clamp8
  rcases Nat.eq_zero_or_pos n with rfl | hpos
  · norm_num
  rcases Nat.lt_or_ge n 255 with h255 | h255
  · rw [if_neg (by exact_mod_cast Nat.not_le.mpr hpos), if_neg (by exact_mod_cast Nat.not_le.mpr h255)]
    unfold roundHalfEven
    rw [Int.floor_natCast, if_pos (by norm_num), Int.toNat_natCast]
  · have hn : n = 255 := le_antisymm h h255
    subst hn
    rw [if_neg (by norm_num), if_pos (by norm_num)]

theorem clamp8_of_ge {x : ℚ} (h : 255 ≤ x) : clamp8 x = 255 := by
  unfold clamp8
  rw [if_neg (by linarith), if_pos h]

/-- `reducePalette` on pure white at `paletteSize = 125`:
step `52`, each channel `round(255/52) · 52 = 260`. -/
theorem reducePalette_white_125 : reducePalette (255 : ℚ) 255 255 125 = (260, 260, 260) := by
  have hstep : paletteStep 125 = 52 := by decide
  have h125 : ¬(256 ≤ 125) := by norm_num
  simp only [reducePalette, if_neg h125, hstep]
  norm_num [jsRoundQ, Prod.mk.injEq]

/-! ## Claim theorems: engine output structure -/

/-- C1: with `showGrid = false` and `pixelSize ≥ 1`, the buffer produced by
`pixelateImage` assigns pixel `(x, y)` the color computed for block
`(⌊x/pixelSize⌋, ⌊y/pixelSize⌋)`, and all pixels of a block are identical. -/
theorem c1_block_partition (s : PixelSettings) (img : ImageBuf)
    (hps : 1 ≤ s.pixelSize) (_hg : s.showGrid = false) :
    (∀ x y, x < img.width → y < img.height →
        (pixelateBuffer s img).pix x y
          = blockColor img.pix s img.width img.height
              (x / s.pixelSize * s.pixelSize) (y / s.pixelSize * s.pixelSize)) ∧
      ∀ x₁ y₁ x₂ y₂, x₁ < img.width → y₁ < img.height → x₂ < img.width → y₂ < img.height →
        x₁ / s.pixelSize = x₂ / s.pixelSize → y₁ / s.pixelSize = y₂ / s.pixelSize →
        (pixelateBuffer s img).pix x₁ y₁ = (pixelateBuffer s img).pix x₂ y₂ := by
  refine ⟨fun x y hx hy => pixelate_pix_eq s img x y hps hx hy, ?_⟩
  intro x₁ y₁ x₂ y₂ hx₁ hy₁ hx₂ hy₂ hdx hdy
  rw [pixelate_pix_eq s img x₁ y₁ hps hx₁ hy₁, pixelate_pix_eq s img x₂ y₂ hps hx₂ hy₂,
    hdx, hdy]

theorem c1_witness :
    1 ≤ plainSettings.pixelSize ∧ plainSettings.showGrid = false ∧
      (pixelateBuffer plainSettings diagImg).pix 1 2
        = blockColor diagImg.pix plainSettings diagImg.width diagImg.height
            (1 / plainSettings.pixelSize * plainSettings.pixelSize)
            (2 / plainSettings.pixelSize * plainSettings.pixelSize) :=
  ⟨by decide, by decide,
    (c1_block_partition plainSettings diagImg (by decide) (by decide)).1 1 2
      (by decide) (by decide)⟩

/-- C5 (amended): the engine writes, for every block, the `Uint8ClampedArray`
clamp of `reducePalette` applied to the color effect's output — palette
reduction is applied unconditionally — while the written alpha equals the
block's sampled alpha exactly (sampled alphas never exceed 255, so the
clamping store does not alter them). -/
theorem c5_amended_write_pipeline (s : PixelSettings) (img : ImageBuf) (x y : Nat)
    (hps : 1 ≤ s.pixelSize) (hx : x < img.width) (hy : y < img.height)
    (halpha : ∀ px py, px < img.width → py < img.height → (img.pix px py).a ≤ 255) :
    (pixelateBuffer s img).pix x y
      = { r := clamp8 (reducePalette
            (applyEffect s
              ((sampleBlock img.pix img.width img.height s.pixelSize
                  (x / s.pixelSize * s.pixelSize) (y / s.pixelSize * s.pixelSize) s.sampling).r : ℚ)
              ((sampleBlock img.pix img.width img.height s.pixelSize
                  (x / s.pixelSize * s.pixelSize) (y / s.pixelSize * s.pixelSize) s.sampling).g : ℚ)
              ((sampleBlock img.pix img.width img.height s.pixelSize
                  (x / s.pixelSize * s.pixelSize) (y / s.pixelSize * s.pixelSize) s.sampling).b : ℚ)).1
            (applyEffect s
              ((sampleBlock img.pix img.width img.height s.pixelSize
                  (x / s.pixelSize * s.pixelSize) (y / s.pixelSize * s.pixelSize) s.sampling).r : ℚ)
              ((sampleBlock img.pix img.width img.height s.pixelSize
                  (x / s.pixelSize * s.pixelSize) (y / s.pixelSize * s.pixelSize) s.sampling).g : ℚ)
              ((sampleBlock img.pix img.width img.height s.pixelSize
                  (x / s.pixelSize * s.pixelSize) (y / s.pixelSize * s.pixelSize) s.sampling).b : ℚ)).2.1
            (applyEffect s
              ((sampleBlock img.pix img.width img.height s.pixelSize
                  (x / s.pixelSize * s.pixelSize) (y / s.pixelSize * s.pixelSize) s.sampling).r : ℚ)
              ((sampleBlock img.pix img.width img.height s.pixelSize
                  (x / s.pixelSize * s.pixelSize) (y / s.pixelSize * s.pixelSize) s.sampling).g : ℚ)
              ((sampleBlock img.pix img.width img.height s.pixelSize
                  (x / s.pixelSize * s.pixelSize) (y / s.pixelSize * s.pixelSize) s.sampling).b : ℚ)).2.2
            s.paletteSize).1
          g := clamp8 (reducePalette
            (applyEffect s
              ((sampleBlock img.pix img.width img.height s.pixelSize
                  (x / s.pixelSize * s.pixelSize) (y / s.pixelSize * s.pixelSize) s.sampling).r : ℚ)
              ((sampleBlock img.pix img.width img.height s.pixelSize
                  (x / s.pixelSize * s.pixelSize) (y / s.pixelSize * s.pixelSize) s.sampling).g : ℚ)
              ((sampleBlock img.pix img.width img.height s.pixelSize
                  (x / s.pixelSize * s.pixelSize) (y / s.pixelSize * s.pixelSize) s.sampling).b : ℚ)).1
            (applyEffect s
              ((sampleBlock img.pix img.width img.height s.pixelSize
                  (x / s.pixelSize * s.pixelSize) (y / s.pixelSize * s.pixelSize) s.sampling).r : ℚ)
              ((sampleBlock img.pix img.width img.height s.pixelSize
                  (x / s.pixelSize * s.pixelSize) (y / s.pixelSize * s.pixelSize) s.sampling).g : ℚ)
              ((sampleBlock img.pix img.width img.height s.pixelSize
                  (x / s.pixelSize * s.pixelSize) (y / s.pixelSize * s.pixelSize) s.sampling).b : ℚ)).2.1
            (applyEffect s
              ((sampleBlock img.pix img.width img.height s.pixelSize
                  (x / s.pixelSize * s.pixelSize) (y / s.pixelSize * s.pixelSize) s.sampling).r : ℚ)
              ((sampleBlock img.pix img.width img.height s.pixelSize
                  (x / s.pixelSize * s.pixelSize) (y / s.pixelSize * s.pixelSize) s.sampling).g : ℚ)
              ((sampleBlock img.pix img.width img.height s.pixelSize
                  (x / s.pixelSize * s.pixelSize) (y / s.pixelSize * s.pixelSize) s.sampling).b : ℚ)).2.2
            s.paletteSize).2.1
          b := clamp8 (reducePalette
            (applyEffect s
              ((sampleBlock img.pix img.width img.height s.pixelSize
                  (x / s.pixelSize * s.pixelSize) (y / s.pixelSize * s.pixelSize) s.sampling).r : ℚ)
              ((sampleBlock img.pix img.width img.height s.pixelSize
                  (x / s.pixelSize * s.pixelSize) (y / s.pixelSize * s.pixelSize) s.sampling).g : ℚ)
              ((sampleBlock img.pix img.width img.height s.pixelSize
                  (x / s.pixelSize * s.pixelSize) (y / s.pixelSize * s.pixelSize) s.sampling).b : ℚ)).1
            (applyEffect s
              ((sampleBlock img.pix img.width img.height s.pixelSize
                  (x / s.pixelSize * s.pixelSize) (y / s.pixelSize * s.pixelSize) s.sampling).r : ℚ)
              ((sampleBlock img.pix img.width img.height s.pixelSize
                  (x / s.pixelSize * s.pixelSize) (y / s.pixelSize * s.pixelSize) s.sampling).g : ℚ)
              ((sampleBlock img.pix img.width img.height s.pixelSize
                  (x / s.pixelSize * s.pixelSize) (y / s.pixelSize * s.pixelSize) s.sampling).b : ℚ)).2.1
            (applyEffect s
              ((sampleBlock img.pix img.width img.height s.pixelSize
                  (x / s.pixelSize * s.pixelSize) (y / s.pixelSize * s.pixelSize) s.sampling).r : ℚ)
              ((sampleBlock img.pix img.width img.height s.pixelSize
                  (x / s.pixelSize * s.pixelSize) (y / s.pixelSize * s.pixelSize) s.sampling).g : ℚ)
              ((sampleBlock img.pix img.width img.height s.pixelSize
                  (x / s.pixelSize * s.pixelSize) (y / s.pixelSize * s.pixelSize) s.sampling).b : ℚ)).2.2
            s.paletteSize).2.2
          a := (sampleBlock img.pix img.width img.height s.pixelSize
            (x / s.pixelSize * s.pixelSize) (y / s.pixelSize * s.pixelSize) s.sampling).a } := by
  rw [pixelate_pix_eq s img x y hps hx hy]
  simp only [blockColor]
  rw [RGBA.mk.injEq]
  refine ⟨rfl, rfl, rfl, ?_⟩
  refine clamp8_natCast_of_le _ (sampleBlock_alpha_le img.pix img.width img.height s.pixelSize
    _ _ s.sampling hps ?_ ?_ halpha)
  · exact lt_of_le_of_lt (Nat.div_mul_le_self x s.pixelSize) hx
  · exact lt_of_le_of_lt (Nat.div_mul_le_self y s.pixelSize) hy

theorem c5_witness :
    1 ≤ palette125Settings.pixelSize ∧
      (pixelateBuffer palette125Settings whiteImg).pix 0 0
        = { r := clamp8 (reducePalette
              (applyEffect palette125Settings
                ((sampleBlock whiteImg.pix whiteImg.width whiteImg.height
                    palette125Settings.pixelSize 0 0 palette125Settings.sampling).r : ℚ)
                ((sampleBlock whiteImg.pix whiteImg.width whiteImg.height
                    palette125Settings.pixelSize 0 0 palette125Settings.sampling).g : ℚ)
                ((sampleBlock whiteImg.pix whiteImg.width whiteImg.height
                    palette125Settings.pixelSize 0 0 palette125Settings.sampling).b : ℚ)).1
              (applyEffect palette125Settings
                ((sampleBlock whiteImg.pix whiteImg.width whiteImg.height
                    palette125Settings.pixelSize 0 0 palette125Settings.sampling).r : ℚ)
                ((sampleBlock whiteImg.pix whiteImg.width whiteImg.height
                    palette125Settings.pixelSize 0 0 palette125Settings.sampling).g : ℚ)
                ((sampleBlock whiteImg.pix whiteImg.width whiteImg.height
                    palette125Settings.pixelSize 0 0 palette125Settings.sampling).b : ℚ)).2.1
              (applyEffect palette125Settings
                ((sampleBlock whiteImg.pix whiteImg.width whiteImg.height
                    palette125Settings.pixelSize 0 0 palette125Settings.sampling).r : ℚ)
                ((sampleBlock whiteImg.pix whiteImg.width whiteImg.height
                    palette125Settings.pixelSize 0 0 palette125Settings.sampling).g : ℚ)
                ((sampleBlock whiteImg.pix whiteImg.width whiteImg.height
                    palette125Settings.pixelSize 0 0 palette125Settings.sampling).b : ℚ)).2.2
              palette125Settings.paletteSize).1
            g := clamp8 (reducePalette
              (applyEffect palette125Settings
                ((sampleBlock whiteImg.pix whiteImg.width whiteImg.height
                    palette125Settings.pixelSize 0 0 palette125Settings.sampling).r : ℚ)
                ((sampleBlock whiteImg.pix whiteImg.width whiteImg.height
                    palette125Settings.pixelSize 0 0 palette125Settings.sampling).g : ℚ)
                ((sampleBlock whiteImg.pix whiteImg.width whiteImg.height
                    palette125Settings.pixelSize 0 0 palette125Settings.sampling).b : ℚ)).1
              (applyEffect palette125Settings
                ((sampleBlock whiteImg.pix whiteImg.width whiteImg.height
                    palette125Settings.pixelSize 0 0 palette125Settings.sampling).r : ℚ)
                ((sampleBlock whiteImg.pix whiteImg.width whiteImg.height
                    palette125Settings.pixelSize 0 0 palette125Settings.sampling).g : ℚ)
                ((sampleBlock whiteImg.pix whiteImg.width whiteImg.height
                    palette125Settings.pixelSize 0 0 palette125Settings.sampling).b : ℚ)).2.1
              (applyEffect palette125Settings
                ((sampleBlock whiteImg.pix whiteImg.width whiteImg.height
                    palette125Settings.pixelSize 0 0 palette125Settings.sampling).r : ℚ)
                ((sampleBlock whiteImg.pix whiteImg.width whiteImg.height
                    palette125Settings.pixelSize 0 0 palette125Settings.sampling).g : ℚ)
                ((sampleBlock whiteImg.pix whiteImg.width whiteImg.height
                    palette125Settings.pixelSize 0 0 palette125Settings.sampling).b : ℚ)).2.2
              palette125Settings.paletteSize).2.1
            b := clamp8 (reducePalette
              (applyEffect palette125Settings
                ((sampleBlock whiteImg.pix whiteImg.width whiteImg.height
                    palette125Settings.pixelSize 0 0 palette125Settings.sampling).r : ℚ)
                ((sampleBlock whiteImg.pix whiteImg.width whiteImg.height
                    palette125Settings.pixelSize 0 0 palette125Settings.sampling).g : ℚ)
                ((sampleBlock whiteImg.pix whiteImg.width whiteImg.height
                    palette125Settings.pixelSize 0 0 palette125Settings.sampling).b : ℚ)).1
              (applyEffect palette125Settings
                ((sampleBlock whiteImg.pix whiteImg.width whiteImg.height
                    palette125Settings.pixelSize 0 0 palette125Settings.sampling).r : ℚ)
                ((sampleBlock whiteImg.pix whiteImg.width whiteImg.height
                    palette125Settings.pixelSize 0 0 palette125Settings.sampling).g : ℚ)
                ((sampleBlock whiteImg.pix whiteImg.width whiteImg.height
                    palette125Settings.pixelSize 0 0 palette125Settings.sampling).b : ℚ)).2.1
              (applyEffect palette125Settings
                ((sampleBlock whiteImg.pix whiteImg.width whiteImg.height
                    palette125Settings.pixelSize 0 0 palette125Settings.sampling).r : ℚ)
                ((sampleBlock whiteImg.pix whiteImg.width whiteImg.height
                    palette125Settings.pixelSize 0 0 palette125Settings.sampling).g : ℚ)
                ((sampleBlock whiteImg.pix whiteImg.width whiteImg.height
                    palette125Settings.pixelSize 0 0 palette125Settings.sampling).b : ℚ)).2.2
              palette125Settings.paletteSize).2.2
            a := (sampleBlock whiteImg.pix whiteImg.width whiteImg.height
              palette125Settings.pixelSize 0 0 palette125Settings.sampling).a } :=
  ⟨by decide, c5_amended_write_pipeline palette125Settings whiteImg 0 0 (by decide)
    (by decide) (by decide) fun _ _ _ _ => Nat.le_refl 255⟩

/-- C5 (counterexample to the claim as stated): on a 1×1 white image with
`paletteSize = 125` the block pipeline value is `260`, but the stored channel
is its clamp `255`, so the written rgb is *not* equal to `reducePalette`
applied to the color effect's output.  The first conjunct certifies that
`(255, 255, 255, 255)` is indeed the sampled block color used. -/
theorem c5_counterexample :
    sampleBlock whiteImg.pix whiteImg.width whiteImg.height palette125Settings.pixelSize 0 0
        palette125Settings.sampling = RGBA.mk 255 255 255 255 ∧
      (((pixelateBuffer palette125Settings whiteImg).pix 0 0).r : ℚ)
        ≠ (reducePalette (applyEffect palette125Settings 255 255 255).1
            (applyEffect palette125Settings 255 255 255).2.1
            (applyEffect palette125Settings 255 255 255).2.2
            palette125Settings.paletteSize).1 := by
  refine ⟨rfl, ?_⟩
  rw [pixelate_pix_eq palette125Settings whiteImg 0 0 (by decide) (by decide) (by decide)]
  have hbc : blockColor whiteImg.pix palette125Settings whiteImg.width whiteImg.height
      (0 / palette125Settings.pixelSize * palette125Settings.pixelSize)
      (0 / palette125Settings.pixelSize * palette125Settings.pixelSize)
      = RGBA.mk (clamp8 (reducePalette ((255 : Nat) : ℚ) ((255 : Nat) : ℚ) ((255 : Nat) : ℚ) 125).1)
          (clamp8 (reducePalette ((255 : Nat) : ℚ) ((255 : Nat) : ℚ) ((255 : Nat) : ℚ) 125).2.1)
          (clamp8 (reducePalette ((255 : Nat) : ℚ) ((255 : Nat) : ℚ) ((255 : Nat) : ℚ) 125).2.2)
          (clamp8 ((255 : Nat) : ℚ)) := rfl
  rw [hbc]
  have heff : applyEffect palette125Settings (255 : ℚ) 255 255 = ((255 : ℚ), 255, 255) := rfl
  have hps : palette125Settings.paletteSize = 125 := rfl
  rw [heff, hps]
  have hcast : ((255 : Nat) : ℚ) = (255 : ℚ) := by norm_num
  simp only [hcast]
  rw [reducePalette_white_125]
  dsimp only
  rw [clamp8_of_ge (by norm_num : (255 : ℚ) ≤ 260)]
  norm_num

/-! ## Claim theorems: export scaling -/

/-- C3: for every positive scale (and `showGrid = false`, the configuration
under which the grid-free native buffer is modelled), `exportImage` produces
a `width·scale × height·scale` buffer in which, prior to watermarking,
output pixel `(x, y)` equals native pixelated pixel `(⌊x/scale⌋, ⌊y/scale⌋)`;
at `scale = 2` each native pixel fills a contiguous 2×2 region. -/
theorem c3_export_scaling (s : PixelSettings) (img : ImageBuf) (scale : Nat)
    (_hsc : 1 ≤ scale) (_hg : s.showGrid = false) :
    (exportImageBuf s img scale).width = img.width * scale ∧
      (exportImageBuf s img scale).height = img.height * scale ∧
      (∀ x y, (exportImageBuf s img scale).pix x y
        = (pixelateBuffer s img).pix (x / scale) (y / scale)) ∧
      (scale = 2 → ∀ x y,
        (exportImageBuf s img scale).pix (2 * x) (2 * y) = (pixelateBuffer s img).pix x y ∧
        (exportImageBuf s img scale).pix (2 * x + 1) (2 * y) = (pixelateBuffer s img).pix x y ∧
        (exportImageBuf s img scale).pix (2 * x) (2 * y + 1) = (pixelateBuffer s img).pix x y ∧
        (exportImageBuf s img scale).pix (2 * x + 1) (2 * y + 1)
          = (pixelateBuffer s img).pix x y) := by
  refine ⟨rfl, rfl, fun x y => rfl, ?_⟩
  rintro rfl x y
  refine ⟨?_, ?_, ?_, ?_⟩ <;>
    · show (pixelateBuffer s img).pix _ _ = (pixelateBuffer s img).pix x y
      congr 1 <;> omega

theorem c3_witness :
    1 ≤ 2 ∧ plainSettings.showGrid = false ∧
      (exportImageBuf plainSettings diagImg 2).width = diagImg.width * 2 :=
  ⟨by norm_num, by decide,
    (c3_export_scaling plainSettings diagImg 2 (by norm_num) (by decide)).1⟩

/-! ## Claim theorems: shape independence and missing effect parameters -/

/-- C7: the engine never reads `settings.shape`: two settings values equal in
every field except `shape` produce identical output buffers. -/
theorem c7_shape_independent (s₁ s₂ : PixelSettings) (img : ImageBuf)
    (hps : s₁.pixelSize = s₂.pixelSize) (hsam : s₁.sampling = s₂.sampling)
    (heff : s₁.colorEffect = s₂.colorEffect) (hpal : s₁.paletteSize = s₂.paletteSize)
    (hgrid : s₁.showGrid = s₂.showGrid) (hd1 : s₁.duotoneColor1 = s₂.duotoneColor1)
    (hd2 : s₁.duotoneColor2 = s₂.duotoneColor2)
    (hpl : s₁.posterizeLevels = s₂.posterizeLevels) :
    pixelateBuffer s₁ img = pixelateBuffer s₂ img := by
  obtain ⟨a₁, sh₁, c₁, d₁, e₁, f₁, g₁, h₁, i₁⟩ := s₁
  obtain ⟨a₂, sh₂, c₂, d₂, e₂, f₂, g₂, h₂, i₂⟩ := s₂
  dsimp only at hps hsam heff hpal hgrid hd1 hd2 hpl
  subst hps hsam heff hpal hgrid hd1 hd2 hpl
  rfl

theorem c7_witness :
    plainSettings.pixelSize = { plainSettings with shape := PixelShape.hex }.pixelSize ∧
      pixelateBuffer plainSettings diagImg
        = pixelateBuffer { plainSettings with shape := PixelShape.hex } diagImg :=
  ⟨rfl, c7_shape_independent _ _ diagImg rfl rfl rfl rfl rfl rfl rfl rfl⟩

theorem applyEffect_eq_id (s : PixelSettings)
    (hcase : (s.colorEffect = ColorEffect.duotone
        ∧ (s.duotoneColor1 = none ∨ s.duotoneColor2 = none))
      ∨ (s.colorEffect = ColorEffect.posterize ∧ s.posterizeLevels = none)) :
    ∀ r g b : ℚ, applyEffect s r g b = (r, g, b) := by
  intro r g b
  rcases hcase with ⟨heff, hmiss⟩ | ⟨heff, hmiss⟩
  · rcases hmiss with h1 | h1 <;> simp [applyEffect, heff, h1, truthyOptStr]
  · simp [applyEffect, heff, hmiss, truthyOptNum]

theorem applyEffect_normal_eq_id (s : PixelSettings) (h : s.colorEffect = ColorEffect.normal) :
    ∀ r g b : ℚ, applyEffect s r g b = (r, g, b) := by
  intro r g b
  simp [applyEffect, h]

theorem pixelateBuffer_effect_invariant (s s' : PixelSettings) (img : ImageBuf)
    (hps : s.pixelSize = s'.pixelSize) (hsam : s.sampling = s'.sampling)
    (hpal : s.paletteSize = s'.paletteSize)
    (heff : ∀ r g b : ℚ, applyEffect s r g b = applyEffect s' r g b) :
    pixelateBuffer s img = pixelateBuffer s' img := by
  have hbc : ∀ (pix : Nat → Nat → RGBA) (w h x y : Nat),
      blockColor pix s w h x y = blockColor pix s' w h x y := by
    intro pix w h x y
    simp only [blockColor]
    rw [hps, hsam, hpal, heff]
  have hstep : stepBlock s img.width img.height = stepBlock s' img.width img.height := by
    funext pix o px py
    unfold stepBlock writeBlock
    rw [hps, hbc]
  unfold pixelateBuffer
  rw [hps, hstep]

/-- C10: `colorEffect = duotone` with a missing duotone color, or
`colorEffect = posterize` with missing `posterizeLevels`, silently applies no
color effect: the engine output equals the output under `colorEffect =
normal` (palette reduction still applied), and processing completes
normally. -/
theorem c10_missing_params_fallback (s : PixelSettings) (img : ImageBuf)
    (hcase : (s.colorEffect = ColorEffect.duotone
        ∧ (s.duotoneColor1 = none ∨ s.duotoneColor2 = none))
      ∨ (s.colorEffect = ColorEffect.posterize ∧ s.posterizeLevels = none)) :
    pixelateBuffer s img = pixelateBuffer { s with colorEffect := ColorEffect.normal } img := by
  refine pixelateBuffer_effect_invariant s _ img rfl rfl rfl ?_
  intro r g b
  rw [applyEffect_eq_id s hcase r g b,
    applyEffect_normal_eq_id { s with colorEffect := ColorEffect.normal } rfl r g b]

theorem c10_witness :
    duotoneMissing.colorEffect = ColorEffect.duotone ∧ duotoneMissing.duotoneColor1 = none ∧
      pixelateBuffer duotoneMissing diagImg
        = pixelateBuffer { duotoneMissing with colorEffect := ColorEffect.normal } diagImg :=
  ⟨rfl, rfl, c10_missing_params_fallback duotoneMissing diagImg (Or.inl ⟨rfl, Or.inl rfl⟩)⟩

/-! ## Claim theorems: batch export isolation -/

theorem batch_files_mono (outcome : Nat → Except String String) :
    ∀ (scales : List Nat) (st : BatchState) (p : Nat × String),
      p ∈ st.exportedFiles → p ∈ (scales.foldl (batchStep outcome) st).exportedFiles := by
  intro scales
  induction scales with
  | nil => intro st p hp; exact hp
  | cons a l ih =>
    intro st p hp
    rw [List.foldl_cons]
    refine ih (batchStep outcome st a) p ?_
    unfold batchStep
    cases h : outcome a with
    | ok u => exact List.mem_append_left _ hp
    | error e => exact hp

theorem batch_toasts_mono (outcome : Nat → Except String String) :
    ∀ (scales : List Nat) (st : BatchState) (t : String),
      t ∈ st.toasts → t ∈ (scales.foldl (batchStep outcome) st).toasts := by
  intro scales
  induction scales with
  | nil => intro st t ht; exact ht
  | cons a l ih =>
    intro st t ht
    rw [List.foldl_cons]
    refine ih (batchStep outcome st a) t ?_
    unfold batchStep
    cases h : outcome a with
    | ok u => exact ht
    | error e => exact List.mem_append_left _ ht

theorem batch_reports (outcome : Nat → Except String String) :
    ∀ (scales : List Nat) (st : BatchState) (s : Nat), s ∈ scales →
      (∀ u, outcome s = Except.ok u →
        (s, u) ∈ (scales.foldl (batchStep outcome) st).exportedFiles) ∧
      (∀ e, outcome s = Except.error e →
        batchToast s ∈ (scales.foldl (batchStep outcome) st).toasts) := by
  intro scales
  induction scales with
  | nil => intro st s hs; exact absurd hs (List.not_mem_nil s)
  | cons a l ih =>
    intro st s hs
    rw [List.foldl_cons]
    rcases List.mem_cons.mp hs with rfl | hsl
    · constructor
      · intro u hu
        refine batch_files_mono outcome l _ _ ?_
        unfold batchStep
        rw [hu]
        exact List.mem_append_right _ (by simp)
      · intro e he
        refine batch_toasts_mono outcome l _ _ ?_
        unfold batchStep
        rw [he]
        exact List.mem_append_right _ (by simp)
    · exact ih (batchStep outcome st a) s hsl

/-- C8: the batch-export loop isolates failures per scale: for every per-scale
outcome of `exportImage` and every scale in the batch, that scale's success
is recorded in `exportedFiles` and its failure produces that scale's failure
toast — independently of what any other scale's outcome is, because the loop
catches each rejection and continues. -/
theorem c8_batch_isolation (outcome : Nat → Except String String) (scales : List Nat)
    (s : Nat) (hs : s ∈ scales) :
    (∀ u, outcome s = Except.ok u →
      (s, u) ∈ (handleBatchExport outcome scales).exportedFiles) ∧
    (∀ e, outcome s = Except.error e →
      batchToast s ∈ (handleBatchExport outcome scales).toasts) :=
  batch_reports outcome scales ⟨[], []⟩ s hs

theorem c8_witness :
    2 ∈ batchScales ∧
      batchToast 2 ∈ (handleBatchExport failAt2 batchScales).toasts ∧
      (1, "data") ∈ (handleBatchExport failAt2 batchScales).exportedFiles ∧
      (4, "data") ∈ (handleBatchExport failAt2 batchScales).exportedFiles :=
  ⟨by decide,
    (c8_batch_isolation failAt2 batchScales 2 (by decide)).2 "canvas error" rfl,
    (c8_batch_isolation failAt2 batchScales 1 (by decide)).1 "data" rfl,
    (c8_batch_isolation failAt2 batchScales 4 (by decide)).1 "data" rfl⟩

end Pixelated
